import Mathlib

/-!
Verification development for the dsail-annotate annotation workspace.

The definitions below are a shallow embedding of the TypeScript source:
  - src/components/ImageCanvas.tsx (canvas geometry, hit-testing, drag-create,
    8-handle resizing),
  - src/components/AnnotationPlatform.tsx (the second canvas variant),
  - src/components/BatchAnnotationPlatform.tsx (updateImage),
  - src/hooks/useBatchProcessing.ts (batch pipeline and progress aggregation).

Numbers that are JavaScript floats are modelled as rationals; JavaScript
`undefined` for an absent optional field is modelled with Option.
-/

namespace DsailAnnotate

/-- A point in the plane (pointer position or image-space position). -/
structure Point where
  x : ℚ
  y : ℚ
deriving DecidableEq

/-- Bounding box in image-pixel units, as in the Annotation interface. -/
structure BBox where
  x : ℚ
  y : ℚ
  width : ℚ
  height : ℚ
deriving DecidableEq

/-- Provenance of an annotation (`source: "ai" | "manual"`). -/
inductive Source where
  | ai
  | manual
deriving DecidableEq

/-- An annotation record.  The TypeScript interface declares `verified:
boolean`, but the drag-create handler in AnnotationPlatform.tsx builds the
object without a `verified` key and with a `visible` key that the interface
does not declare, so both fields are runtime-optional; `none` models a field
that is absent (JavaScript `undefined`). -/
structure Annotation where
  id : String
  label : String
  confidence : ℚ
  bbox : BBox
  source : Source
  verified : Option Bool
  visible : Option Bool
deriving DecidableEq

/-- `status: 'pending' | 'processing' | 'completed' | 'failed'` from
types/batch.ts. -/
inductive Status where
  | pending
  | processing
  | completed
  | failed
deriving DecidableEq

/-- The ImageData record of types/batch.ts; `file` is an opaque token. -/
structure ImageRec where
  id : String
  file : String
  url : String
  annotations : List Annotation
  status : Status
  progress : ℚ
  name : String
  size : ℕ
  lastModified : ℤ
  selected : Bool
deriving DecidableEq

/-- A `Partial<ImageData>` payload: every field optional, `none` = key absent. -/
structure ImageUpdate where
  id : Option String
  file : Option String
  url : Option String
  annotations : Option (List Annotation)
  status : Option Status
  progress : Option ℚ
  name : Option String
  size : Option ℕ
  lastModified : Option ℤ
  selected : Option Bool
deriving DecidableEq

/-- JavaScript object spread `{ ...img, ...updates }`: a present key of the
update wins, an absent key keeps the image's value. -/
def applyUpdate (img : ImageRec) (u : ImageUpdate) : ImageRec :=
  { id := u.id.getD img.id
    file := u.file.getD img.file
    url := u.url.getD img.url
    annotations := u.annotations.getD img.annotations
    status := u.status.getD img.status
    progress := u.progress.getD img.progress
    name := u.name.getD img.name
    size := u.size.getD img.size
    lastModified := u.lastModified.getD img.lastModified
    selected := u.selected.getD img.selected }

/-- `updateImage` from BatchAnnotationPlatform.tsx (lines 35-49):
`prev.images.map(img => img.id === id ? { ...img, ...updates } : img)`. -/
def updateImage (imgs : List ImageRec) (id : String) (u : ImageUpdate) :
    List ImageRec :=
  imgs.map fun img => if img.id = id then applyUpdate img u else img

/-- The empty update payload. -/
def emptyUpdate : ImageUpdate :=
  ⟨none, none, none, none, none, none, none, none, none, none⟩

end DsailAnnotate

namespace DsailAnnotate.ImageCanvas

open DsailAnnotate

/-- The active tool, as passed to the canvas components. -/
inductive Tool where
  | select
  | bbox
  | edit
deriving DecidableEq

/-- Closed-interval bbox containment used by `handleCanvasClick`
(ImageCanvas.tsx lines 267-273): `coords.x >= bbox.x && coords.x <= bbox.x +
bbox.width && coords.y >= bbox.y && coords.y <= bbox.y + bbox.height`. -/
def containsB (p : Point) (a : Annotation) : Bool :=
  decide (a.bbox.x ≤ p.x) && decide (p.x ≤ a.bbox.x + a.bbox.width) &&
  decide (a.bbox.y ≤ p.y) && decide (p.y ≤ a.bbox.y + a.bbox.height)

/-- The hit-test of `handleCanvasClick` (ImageCanvas.tsx lines 262-277 and
AnnotationPlatform.tsx lines 879-894): `annotations.find(...)` over the
stored order with the containment predicate above. -/
def hitTest (p : Point) (anns : List Annotation) : Option Annotation :=
  anns.find? (containsB p)

/-- `getCanvasCoordinates` (ImageCanvas.tsx lines 203-211): maps a client
pointer position to image space by `(client - rectOrigin - offset) / scale`. -/
def getCanvasCoordinates (client : Point) (rectLeft rectTop : ℚ)
    (offset : Point) (scale : ℚ) : Point :=
  ⟨(client.x - rectLeft - offset.x) / scale,
   (client.y - rectTop - offset.y) / scale⟩

/-- The image-to-display mapping used by `drawCanvas` (ImageCanvas.tsx lines
119-120): `bbox.x * scale + offset.x` (and similarly for y). -/
def toDisplaySpace (p : Point) (offset : Point) (scale : ℚ) : Point :=
  ⟨p.x * scale + offset.x, p.y * scale + offset.y⟩

/-- The eight resize handles. -/
inductive Handle where
  | nw
  | ne
  | sw
  | se
  | n
  | s
  | e
  | w
deriving DecidableEq

/-- `resizeHandle.includes("w")` on the handle names. -/
def includesW : Handle → Bool
  | .nw => true
  | .sw => true
  | .w => true
  | _ => false

/-- `resizeHandle.includes("n")` on the handle names. -/
def includesN : Handle → Bool
  | .nw => true
  | .ne => true
  | .n => true
  | _ => false

/-- The per-handle switch of the resizing branch of `handleMouseMove`
(ImageCanvas.tsx lines 327-362): corner handles adjust both adjacent edges,
edge handles only their own axis. -/
def resizeRaw (h : Handle) (orig : BBox) (deltaX deltaY : ℚ) : BBox :=
  match h with
  | .nw => ⟨orig.x + deltaX, orig.y + deltaY,
            orig.width - deltaX, orig.height - deltaY⟩
  | .ne => ⟨orig.x, orig.y + deltaY,
            orig.width + deltaX, orig.height - deltaY⟩
  | .sw => ⟨orig.x + deltaX, orig.y,
            orig.width - deltaX, orig.height + deltaY⟩
  | .se => ⟨orig.x, orig.y, orig.width + deltaX, orig.height + deltaY⟩
  | .n => ⟨orig.x, orig.y + deltaY, orig.width, orig.height - deltaY⟩
  | .s => ⟨orig.x, orig.y, orig.width, orig.height + deltaY⟩
  | .w => ⟨orig.x + deltaX, orig.y, orig.width - deltaX, orig.height⟩
  | .e => ⟨orig.x, orig.y, orig.width + deltaX, orig.height⟩

/-- The minimum-width enforcement of `handleMouseMove` (ImageCanvas.tsx
lines 365-368): width pinned to 10 and, for handles containing "w", the x
coordinate pinned so the right edge stays fixed. -/
def pinWidth (h : Handle) (orig b : BBox) : BBox :=
  if b.width < 10 then
    ⟨if includesW h then orig.x + orig.width - 10 else b.x, b.y, 10, b.height⟩
  else b

/-- The minimum-height enforcement of `handleMouseMove` (ImageCanvas.tsx
lines 369-372): height pinned to 10 and, for handles containing "n", the y
coordinate pinned so the bottom edge stays fixed. -/
def pinHeight (h : Handle) (orig b2 : BBox) : BBox :=
  if b2.height < 10 then
    ⟨b2.x, if includesN h then orig.y + orig.height - 10 else b2.y,
     b2.width, 10⟩
  else b2

/-- The full bbox recomputation of the resizing branch of `handleMouseMove`
(ImageCanvas.tsx lines 320-372): the per-handle switch followed by the
10-pixel minimum-size enforcement, in the source's order (width check, then
height check). -/
def resizeBbox (h : Handle) (orig : BBox) (deltaX deltaY : ℚ) : BBox :=
  pinHeight h orig (pinWidth h orig (resizeRaw h orig deltaX deltaY))

/-- `handleMouseUp` of ImageCanvas.tsx (lines 393-417), restricted to its
observable effect on the annotation list and the selection: when a drag is in
progress with the bbox tool and the candidate box exceeds 10 in both
dimensions, a manual annotation (`verified: true`, no `visible` key) is
appended and selected; otherwise the list and selection are unchanged.
The id `manual-Date.now()` is passed in as `newId`. -/
def handleMouseUp (isDragging : Bool) (tool : Tool) (nb : Option BBox)
    (newId : String) (anns : List Annotation) (sel : Option String) :
    List Annotation × Option String :=
  match isDragging, nb, tool with
  | true, some b, Tool.bbox =>
    if 10 < b.width ∧ 10 < b.height then
      (anns ++ [⟨newId, "object", 1, b, Source.manual, some true, none⟩],
       some newId)
    else (anns, sel)
  | _, _, _ => (anns, sel)

end DsailAnnotate.ImageCanvas

namespace DsailAnnotate.AnnotationPlatform

open DsailAnnotate DsailAnnotate.ImageCanvas

/-- `handleMouseUp` of the canvas inside AnnotationPlatform.tsx (lines
934-955): same gating as the ImageCanvas variant, but the created annotation
carries `visible: true` and no `verified` key. -/
def handleMouseUp (isDragging : Bool) (tool : Tool) (nb : Option BBox)
    (newId : String) (anns : List Annotation) (sel : Option String) :
    List Annotation × Option String :=
  match isDragging, nb, tool with
  | true, some b, Tool.bbox =>
    if 10 < b.width ∧ 10 < b.height then
      (anns ++ [⟨newId, "object", 1, b, Source.manual, none, some true⟩],
       some newId)
    else (anns, sel)
  | _, _, _ => (anns, sel)

end DsailAnnotate.AnnotationPlatform

namespace DsailAnnotate.Batch

open DsailAnnotate

/-- The derived BatchProgress record of types/batch.ts. -/
structure BatchProgress where
  total : ℕ
  completed : ℕ
  failed : ℕ
  processing : ℕ
  percentage : ℚ
deriving DecidableEq

/-- `calculateProgress` from useBatchProcessing.ts (lines 10-18). -/
def calculateProgress (images : List ImageRec) : BatchProgress :=
  let total := images.length
  let completed := (images.filter fun img => img.status = Status.completed).length
  let failed := (images.filter fun img => img.status = Status.failed).length
  let processing := (images.filter fun img => img.status = Status.processing).length
  let percentage : ℚ := if 0 < total then ((completed + failed : ℚ) / total) * 100 else 0
  ⟨total, completed, failed, processing, percentage⟩

/-- One per-image entry of the `/api/detect-batch` response: `image_name`,
an optional `error` string and an optional `annotations` list. -/
structure DetectResult where
  image_name : String
  error : Option String
  annotations : Option (List Annotation)
deriving DecidableEq

/-- JavaScript truthiness of the `imageResult.error` field: `undefined` and
the empty string are falsy, any other string is truthy. -/
def isTruthyErr : Option String → Bool
  | none => false
  | some s => decide (s ≠ "")

/-- Update payload `{ status: 'processing', progress: 10 }` issued for every
image at the start of `processBatchParallel` (useBatchProcessing.ts 29-31). -/
def updProcessing : ImageUpdate :=
  { emptyUpdate with status := some Status.processing, progress := some 10 }

/-- Update payload `{ status: 'failed', progress: 0 }` applied to an image
whose result entry carries an error (useBatchProcessing.ts 72-75). -/
def updFailed : ImageUpdate :=
  { emptyUpdate with status := some Status.failed, progress := some 0 }

/-- Update payload `{ status: 'completed', progress: 100, annotations:
imageResult.annotations || [] }` (useBatchProcessing.ts 77-81). -/
def updCompleted (anns : List Annotation) : ImageUpdate :=
  { emptyUpdate with
      status := some Status.completed
      progress := some 100
      annotations := some anns }

/-- The marking loop `images.forEach(img => updateImage(img.id, { status:
'processing', progress: 10 }))` (useBatchProcessing.ts 29-31), applied to the
platform state `st`; `targets` is the image list the hook was handed. -/
def markProcessing (st : List ImageRec) (targets : List ImageRec) :
    List ImageRec :=
  targets.foldl (fun s t => updateImage s t.id updProcessing) st

/-- Application of one per-image result entry (useBatchProcessing.ts 68-84):
find the target image by name; if found, mark it failed when the entry's
error is truthy, otherwise completed with the entry's annotations (empty list
when absent). -/
def applyResult (targets : List ImageRec) (st : List ImageRec)
    (r : DetectResult) : List ImageRec :=
  match targets.find? (fun t => t.name = r.image_name) with
  | none => st
  | some found =>
    if isTruthyErr r.error then updateImage st found.id updFailed
    else updateImage st found.id (updCompleted (r.annotations.getD []))

/-- `result.results.forEach(...)`: every entry is applied in order,
regardless of whether earlier entries carried errors. -/
def applyResults (targets : List ImageRec) (st : List ImageRec)
    (rs : List DetectResult) : List ImageRec :=
  rs.foldl (applyResult targets) st

/-- The state evolution of a non-cancelled `processBatchParallel` call
(useBatchProcessing.ts 20-97) whose single bulk request succeeds with entry
list `rs`: first every handed image is marked processing with progress 10,
then the per-image results are applied. -/
def processBatchParallelRun (st : List ImageRec) (targets : List ImageRec)
    (rs : List DetectResult) : List ImageRec :=
  applyResults targets (markProcessing st targets) rs

/-- The images `processBatch` targets (useBatchProcessing.ts 112): the handed
images whose status is `pending`. -/
def pendingOf (st : List ImageRec) : List ImageRec :=
  st.filter fun img => img.status = Status.pending

/-- The intermediate state of a batch run right after the marking loop and
before any detector result has been applied. -/
def startBatchMark (st : List ImageRec) : List ImageRec :=
  markProcessing st (pendingOf st)

/-- `processBatch` (useBatchProcessing.ts 99-132): a no-op when a batch is
already in progress, otherwise the run on the pending images. -/
def processBatch (isProcessing : Bool) (st : List ImageRec)
    (rs : List DetectResult) : List ImageRec :=
  if isProcessing then st
  else applyResults (pendingOf st) (startBatchMark st) rs

end DsailAnnotate.Batch

namespace DsailAnnotate

/-- Replacing an annotation's `visible` field, leaving all else unchanged. -/
def setVisible (b : Option Bool) (a : Annotation) : Annotation :=
  { a with visible := b }

/-- A freshly uploaded image record (status `pending`, progress 0), as built
by `handleImagesUpload` in BatchAnnotationPlatform.tsx. -/
def mkImg (id name : String) : ImageRec :=
  ⟨id, "file", "url", [], Status.pending, 0, name, 0, 0, true⟩

/-- A concrete batch of seven freshly uploaded images. -/
def st7 : List ImageRec :=
  [mkImg "1" "n1", mkImg "2" "n2", mkImg "3" "n3", mkImg "4" "n4",
   mkImg "5" "n5", mkImg "6" "n6", mkImg "7" "n7"]

/-- A concrete annotation whose `visible` field is `false`. -/
def hiddenAnn : Annotation :=
  ⟨"h1", "object", 1, ⟨0, 0, 100, 100⟩, Source.ai, some false, some false⟩

/-- A concrete visible annotation covering the square [0,100]². -/
def annA : Annotation :=
  ⟨"a", "object", 1, ⟨0, 0, 100, 100⟩, Source.ai, some true, some true⟩

/-- A concrete visible annotation overlapping `annA`. -/
def annB : Annotation :=
  ⟨"b", "object", 1, ⟨25, 25, 100, 100⟩, Source.ai, some true, some true⟩

end DsailAnnotate

namespace DsailAnnotate

open ImageCanvas

/-- C4: resizing from the `nw` handle keeps the bottom-right corner of the
bbox at the original bottom-right corner, for every pointer delta, and the
resulting width and height are each at least 10, including when the 10-pixel
minimum-size pinning triggers. -/
theorem resize_nw_far_corner_fixed_min_size :
    ∀ (orig : BBox) (dx dy : ℚ),
      (resizeBbox Handle.nw orig dx dy).x + (resizeBbox Handle.nw orig dx dy).width =
        orig.x + orig.width
      ∧ (resizeBbox Handle.nw orig dx dy).y + (resizeBbox Handle.nw orig dx dy).height =
        orig.y + orig.height
      ∧ 10 ≤ (resizeBbox Handle.nw orig dx dy).width
      ∧ 10 ≤ (resizeBbox Handle.nw orig dx dy).height := by
  intro orig dx dy
  simp only [resizeBbox, resizeRaw, pinWidth, pinHeight, includesW, includesN]
  split_ifs with h1 h2 h3 <;> dsimp only at * <;>
    refine ⟨by ring, by ring, by linarith, by linarith⟩

/-- C9: mapping a point from image space to display space (`drawCanvas`
scaling) and back through `getCanvasCoordinates` returns the point, for every
transform with positive scale (exact over the rationals). -/
theorem canvas_coordinates_roundtrip :
    ∀ (p offset : Point) (rectLeft rectTop scale : ℚ), 0 < scale →
      getCanvasCoordinates
        ⟨(toDisplaySpace p offset scale).x + rectLeft,
         (toDisplaySpace p offset scale).y + rectTop⟩
        rectLeft rectTop offset scale = p := by
  intro p offset rectLeft rectTop scale hs
  have hs' : scale ≠ 0 := ne_of_gt hs
  obtain ⟨px, py⟩ := p
  obtain ⟨ox, oy⟩ := offset
  simp only [getCanvasCoordinates, toDisplaySpace, Point.mk.injEq]
  constructor <;> field_simp

/-- Witness for C9 at scale 2, offset (3,4), rect origin (1,7), point (5,6). -/
theorem canvas_coordinates_roundtrip_witness :
    getCanvasCoordinates
      ⟨(toDisplaySpace ⟨5, 6⟩ ⟨3, 4⟩ 2).x + 1,
       (toDisplaySpace ⟨5, 6⟩ ⟨3, 4⟩ 2).y + 7⟩ 1 7 ⟨3, 4⟩ 2 = ⟨5, 6⟩ :=
  canvas_coordinates_roundtrip ⟨5, 6⟩ ⟨3, 4⟩ 1 7 2 (by norm_num)

/-- C8: hit-testing tests annotations in stored order and returns the first
annotation whose bbox contains the point under closed intervals; for two
overlapping annotations both containing the point, the earlier one is
returned. -/
theorem hitTest_first_in_stored_order :
    (∀ (p : Point) (a : Annotation),
        containsB p a = true ↔
          (a.bbox.x ≤ p.x ∧ p.x ≤ a.bbox.x + a.bbox.width ∧
           a.bbox.y ≤ p.y ∧ p.y ≤ a.bbox.y + a.bbox.height))
    ∧ (∀ (p : Point) (anns : List Annotation) (a : Annotation),
        hitTest p anns = some a ↔
          containsB p a = true ∧
            ∃ pre post, anns = pre ++ a :: post ∧
              ∀ b ∈ pre, containsB p b = false)
    ∧ (∀ (p : Point) (a b : Annotation),
        containsB p a = true → hitTest p [a, b] = some a) := by
  refine ⟨?_, ?_, ?_⟩
  · intro p a
    simp [containsB, Bool.and_eq_true, decide_eq_true_eq, and_assoc]
  · intro p anns a
    rw [hitTest, List.find?_eq_some]
    simp [Bool.not_eq_true']
  · intro p a b h
    rw [hitTest, List.find?_cons_of_pos _ h]

/-- Witness for C8: of the two overlapping annotations `annA` and `annB`
both containing (50,50), hit-testing returns the first-stored `annA`. -/
theorem hitTest_first_in_stored_order_witness :
    hitTest ⟨50, 50⟩ [annA, annB] = some annA :=
  hitTest_first_in_stored_order.2.2 ⟨50, 50⟩ annA annB
    (by norm_num [containsB, annA])

/-- C3 counterexample: hit-testing returns `hiddenAnn` even though its
`visible` field is `false` — hidden annotations are not excluded. -/
theorem hitTest_returns_hidden_annotation :
    hitTest ⟨50, 50⟩ [hiddenAnn] = some hiddenAnn ∧
      hiddenAnn.visible = some false := by
  have h : containsB ⟨50, 50⟩ hiddenAnn = true := by
    norm_num [containsB, hiddenAnn]
  exact ⟨by rw [hitTest, List.find?_cons_of_pos _ h], rfl⟩

/-- C3 amended: hit-testing ignores the `visible` field entirely — replacing
every annotation's `visible` field by any value leaves the hit-test result
unchanged (up to that same replacement), so a click inside a hidden
annotation's bbox selects it exactly as if it were visible. -/
theorem hitTest_ignores_visible :
    ∀ (p : Point) (anns : List Annotation) (b : Option Bool),
      hitTest p (anns.map (setVisible b)) =
        (hitTest p anns).map (setVisible b) := by
  intro p anns b
  rw [hitTest, hitTest, List.find?_map]
  have hfun : (containsB p ∘ setVisible b) = containsB p := by
    funext a
    rfl
  rw [hfun]

/-- C2 counterexample: a completed drag-create of a 20×20 box appends an
annotation whose `verified` field is `true` (and whose `visible` field is
absent), not the `verified=false, visible=true` record the claim states. -/
theorem dragCreate_fields_counterexample :
    (ImageCanvas.handleMouseUp true Tool.bbox (some ⟨0, 0, 20, 20⟩) "m1" [] none).1 =
      [⟨"m1", "object", 1, ⟨0, 0, 20, 20⟩, Source.manual, some true, none⟩]
    ∧ (ImageCanvas.handleMouseUp true Tool.bbox (some ⟨0, 0, 20, 20⟩) "m1" [] none).1 ≠
      [⟨"m1", "object", 1, ⟨0, 0, 20, 20⟩, Source.manual, some false, some true⟩] := by
  constructor
  · norm_num [ImageCanvas.handleMouseUp]
  · norm_num [ImageCanvas.handleMouseUp]

/-- C2 amended: a completed drag-create with width > 10 and height > 10
appends a new annotation at the end of the list with source manual and
confidence 1.0 and selects it; in the ImageCanvas handler the annotation has
`verified=true` and no `visible` field, while in the AnnotationPlatform
handler it has `visible=true` and no `verified` field. -/
theorem dragCreate_appends_and_selects :
    ∀ (b : BBox) (newId : String) (anns : List Annotation) (sel : Option String),
      10 < b.width → 10 < b.height →
      ImageCanvas.handleMouseUp true Tool.bbox (some b) newId anns sel =
        (anns ++ [⟨newId, "object", 1, b, Source.manual, some true, none⟩], some newId)
      ∧ AnnotationPlatform.handleMouseUp true Tool.bbox (some b) newId anns sel =
        (anns ++ [⟨newId, "object", 1, b, Source.manual, none, some true⟩], some newId) := by
  intro b newId anns sel hw hh
  constructor
  · simp [ImageCanvas.handleMouseUp, hw, hh]
  · simp [AnnotationPlatform.handleMouseUp, hw, hh]

/-- Witness for amended C2 at a concrete 20×20 drag. -/
theorem dragCreate_appends_and_selects_witness :
    ImageCanvas.handleMouseUp true Tool.bbox (some ⟨0, 0, 20, 20⟩) "m1" [] none =
      ([⟨"m1", "object", 1, ⟨0, 0, 20, 20⟩, Source.manual, some true, none⟩], some "m1")
    ∧ AnnotationPlatform.handleMouseUp true Tool.bbox (some ⟨0, 0, 20, 20⟩) "m1" [] none =
      ([⟨"m1", "object", 1, ⟨0, 0, 20, 20⟩, Source.manual, none, some true⟩], some "m1") := by
  exact dragCreate_appends_and_selects ⟨0, 0, 20, 20⟩ "m1" [] none
    (by norm_num) (by norm_num)

/-- C7: a drag-create whose candidate box has width ≤ 10 or height ≤ 10
creates no annotation and leaves the list and selection unchanged; a
dimension of exactly 10 is rejected, while an 11×11 box is created. -/
theorem dragCreate_threshold :
    (∀ (b : BBox) (newId : String) (anns : List Annotation) (sel : Option String),
        b.width ≤ 10 ∨ b.height ≤ 10 →
        ImageCanvas.handleMouseUp true Tool.bbox (some b) newId anns sel = (anns, sel))
    ∧ (∀ (x y : ℚ) (newId : String) (anns : List Annotation) (sel : Option String),
        ImageCanvas.handleMouseUp true Tool.bbox (some ⟨x, y, 11, 11⟩) newId anns sel =
          (anns ++ [⟨newId, "object", 1, ⟨x, y, 11, 11⟩, Source.manual, some true, none⟩],
           some newId)) := by
  constructor
  · intro b newId anns sel h
    have hc : ¬(10 < b.width ∧ 10 < b.height) := by
      rintro ⟨hw, hh⟩
      rcases h with h | h <;> linarith
    simp [ImageCanvas.handleMouseUp, hc]
  · intro x y newId anns sel
    norm_num [ImageCanvas.handleMouseUp]

/-- Witness for C7: a 10×20 candidate box (exact boundary) is discarded. -/
theorem dragCreate_threshold_witness :
    ImageCanvas.handleMouseUp true Tool.bbox (some ⟨0, 0, 10, 20⟩) "m1" [] none =
      ([], none) :=
  dragCreate_threshold.1 ⟨0, 0, 10, 20⟩ "m1" [] none (Or.inl (by norm_num))

end DsailAnnotate

namespace DsailAnnotate.Batch

open DsailAnnotate

theorem updateImage_length (imgs : List ImageRec) (id : String)
    (u : ImageUpdate) : (updateImage imgs id u).length = imgs.length := by
  simp [updateImage]

theorem applyUpdate_updProcessing_id (img : ImageRec) :
    (applyUpdate img updProcessing).id = img.id := rfl

theorem applyUpdate_updProcessing_status (img : ImageRec) :
    (applyUpdate img updProcessing).status = Status.processing := rfl

theorem applyUpdate_updProcessing_progress (img : ImageRec) :
    (applyUpdate img updProcessing).progress = 10 := rfl

theorem applyUpdate_updProcessing_idem (img : ImageRec) :
    applyUpdate (applyUpdate img updProcessing) updProcessing =
      applyUpdate img updProcessing := rfl

theorem markProcessing_nil (st : List ImageRec) : markProcessing st [] = st :=
  rfl

theorem markProcessing_cons (st : List ImageRec) (t : ImageRec)
    (ts : List ImageRec) :
    markProcessing st (t :: ts) =
      markProcessing (updateImage st t.id updProcessing) ts := rfl

/-- The marking loop as a single map over the state: a record is marked
processing (progress 10) exactly when its id occurs among the targets. -/
theorem markProcessing_eq_map (ts st : List ImageRec) :
    markProcessing st ts =
      st.map fun img =>
        if img.id ∈ ts.map (fun t => t.id) then applyUpdate img updProcessing
        else img := by
  induction ts generalizing st with
  | nil =>
    simp [markProcessing_nil]
  | cons t ts ih =>
    rw [markProcessing_cons, ih, updateImage, List.map_map]
    congr 1
    funext img
    by_cases h1 : img.id = t.id <;>
      by_cases h2 : img.id ∈ ts.map (fun t => t.id) <;>
      simp [Function.comp, h1, h2, applyUpdate_updProcessing_id,
        applyUpdate_updProcessing_idem]

/-- C10: updateImage touches only records whose id matches: list length and
order are preserved, non-matching records are unchanged, the matching record
becomes the field-wise merge of its old value with the update, and every
field absent from the update keeps its previous value. -/
theorem updateImage_frame :
    ∀ (imgs : List ImageRec) (id : String) (u : ImageUpdate),
      (updateImage imgs id u).length = imgs.length
      ∧ (∀ (i : ℕ) (hi : i < imgs.length)
          (hi' : i < (updateImage imgs id u).length),
          (imgs[i].id ≠ id → (updateImage imgs id u)[i] = imgs[i])
          ∧ (imgs[i].id = id →
              (updateImage imgs id u)[i] = applyUpdate imgs[i] u))
      ∧ (∀ img : ImageRec,
          (u.id = none → (applyUpdate img u).id = img.id)
          ∧ (u.file = none → (applyUpdate img u).file = img.file)
          ∧ (u.url = none → (applyUpdate img u).url = img.url)
          ∧ (u.annotations = none →
              (applyUpdate img u).annotations = img.annotations)
          ∧ (u.status = none → (applyUpdate img u).status = img.status)
          ∧ (u.progress = none → (applyUpdate img u).progress = img.progress)
          ∧ (u.name = none → (applyUpdate img u).name = img.name)
          ∧ (u.size = none → (applyUpdate img u).size = img.size)
          ∧ (u.lastModified = none →
              (applyUpdate img u).lastModified = img.lastModified)
          ∧ (u.selected = none →
              (applyUpdate img u).selected = img.selected)) := by
  intro imgs id u
  refine ⟨by simp [updateImage], ?_, ?_⟩
  · intro i hi hi'
    constructor <;> intro h <;> simp [updateImage, h]
  · intro img
    refine ⟨?_, ?_, ?_, ?_, ?_, ?_, ?_, ?_, ?_, ?_⟩ <;>
      intro h <;> simp [applyUpdate, h]

/-- Witness for C10: updating the second of two records leaves the first
unchanged and field-merges the second. -/
theorem updateImage_frame_witness :
    (updateImage [mkImg "1" "n1", mkImg "2" "n2"] "2" updProcessing)[0] =
      mkImg "1" "n1"
    ∧ (updateImage [mkImg "1" "n1", mkImg "2" "n2"] "2" updProcessing)[1] =
      applyUpdate (mkImg "2" "n2") updProcessing := by
  have h := (updateImage_frame [mkImg "1" "n1", mkImg "2" "n2"] "2"
    updProcessing).2.1
  exact ⟨(h 0 (by decide) (by decide)).1 (by decide),
         (h 1 (by decide) (by decide)).2 (by decide)⟩

/-- C5: each per-image result entry updates exactly the found image — on a
truthy error it becomes failed with progress 0, otherwise completed with
progress 100 and its annotations replaced by the entry's list (empty when
absent) — while every sibling record (different id) is unchanged; and the
results loop applies every entry in order regardless of earlier entries'
errors. -/
theorem applyResult_per_image :
    ∀ (targets st : List ImageRec) (r : DetectResult) (rs : List DetectResult),
      (applyResult targets st r =
        match targets.find? (fun t => t.name = r.image_name) with
        | none => st
        | some found =>
          st.map fun img =>
            if img.id = found.id then
              if isTruthyErr r.error then
                { img with status := Status.failed, progress := 0 }
              else
                { img with
                    status := Status.completed
                    progress := 100
                    annotations := r.annotations.getD [] }
            else img)
      ∧ applyResults targets st (r :: rs) =
          applyResults targets (applyResult targets st r) rs := by
  intro targets st r rs
  refine ⟨?_, rfl⟩
  cases h : targets.find? (fun t => t.name = r.image_name) with
  | none => simp [applyResult, h]
  | some found =>
    by_cases he : isTruthyErr r.error = true
    · simp only [applyResult, h, he, if_true]
      rfl
    · rw [Bool.not_eq_true] at he
      simp only [applyResult, h, he, Bool.false_eq_true, if_false]
      rfl

/-- C6: starting a batch with none in progress marks every pending image
with status processing and progress seeded to the non-zero value 10, and
this marking state precedes the application of any detector result. -/
theorem startBatch_seeds_processing_before_results :
    ∀ (st : List ImageRec) (rs : List DetectResult) (i : ℕ)
      (hi : i < st.length) (hi' : i < (startBatchMark st).length),
      st[i].status = Status.pending →
      (startBatchMark st)[i].status = Status.processing
      ∧ (startBatchMark st)[i].progress = 10
      ∧ (0 : ℚ) < 10
      ∧ processBatch false st rs =
          applyResults (pendingOf st) (startBatchMark st) rs := by
  intro st rs i hi hi' hp
  have hmem : st[i].id ∈ (pendingOf st).map (fun t => t.id) := by
    apply List.mem_map_of_mem
    rw [pendingOf, List.mem_filter]
    exact ⟨List.getElem_mem hi, by simp [hp]⟩
  have hget : (startBatchMark st)[i] = applyUpdate st[i] updProcessing := by
    simp only [startBatchMark, markProcessing_eq_map, List.getElem_map]
    rw [if_pos hmem]
  refine ⟨?_, ?_, by norm_num, rfl⟩
  · rw [hget, applyUpdate_updProcessing_status]
  · rw [hget, applyUpdate_updProcessing_progress]

/-- Witness for C6 on a concrete one-image pending batch. -/
theorem startBatch_seeds_processing_witness :
    ((startBatchMark [mkImg "1" "n1"]).get ⟨0, by decide⟩).status =
      Status.processing
    ∧ ((startBatchMark [mkImg "1" "n1"]).get ⟨0, by decide⟩).progress = 10
    ∧ (0 : ℚ) < 10
    ∧ processBatch false [mkImg "1" "n1"] [] =
        applyResults (pendingOf [mkImg "1" "n1"])
          (startBatchMark [mkImg "1" "n1"]) [] :=
  startBatch_seeds_processing_before_results [mkImg "1" "n1"] [] 0
    (by decide) (by decide) (by decide)

/-- C1 counterexample: in the reachable state right after the marking loop
of a batch of 7 pending images, all 7 images are simultaneously in the
processing state — the claimed concurrency bound of 3 is exceeded, and no
grouping into chunks of 3 exists in the code. -/
theorem batch_of_seven_exceeds_bound :
    (calculateProgress (startBatchMark st7)).processing = 7
    ∧ ¬ (calculateProgress (startBatchMark st7)).processing ≤ 3 := by
  constructor <;> decide

/-- C1 amended: there is no partition into groups of size K — the batch is
issued as one bulk request, and during it every targeted (pending) image is
simultaneously in the processing state, so the number of images processing
at the barrier equals the whole batch size. -/
theorem startBatch_marks_whole_batch_processing :
    ∀ st : List ImageRec, (∀ img ∈ st, img.status = Status.pending) →
      (calculateProgress (startBatchMark st)).processing = st.length := by
  intro st hall
  have hpend : pendingOf st = st := by
    rw [pendingOf, List.filter_eq_self]
    intro a ha
    simp [hall a ha]
  rw [startBatchMark, hpend, markProcessing_eq_map]
  have hfil : ∀ a ∈ st.map fun img =>
      (if img.id ∈ st.map (fun t => t.id) then applyUpdate img updProcessing
       else img),
      decide (a.status = Status.processing) = true := by
    intro a ha
    rcases List.mem_map.mp ha with ⟨x, hx, rfl⟩
    have hid : x.id ∈ st.map (fun t => t.id) := List.mem_map_of_mem _ hx
    simp [hid, applyUpdate_updProcessing_status]
  simp only [calculateProgress]
  rw [List.filter_eq_self.mpr hfil, List.length_map]

/-- Witness for amended C1: for the concrete all-pending batch of 7 images,
the count of simultaneously processing images is the full batch size 7. -/
theorem startBatch_marks_whole_batch_processing_witness :
    (calculateProgress (startBatchMark st7)).processing = st7.length :=
  startBatch_marks_whole_batch_processing st7 (by decide)

end DsailAnnotate.Batch
